import Mathlib

/-!
Verification development for the kernel module of a Gaussian-process library
(src/gpflow/kernels.py).  The definitions below are a shallow embedding of the
data model and the operations of that file: matrices are lists of rows of real
numbers, fallible operations return `Except String`, and the pieces that the
source delegates to external libraries (the Gauss-Hermite quadrature routine
`mvnquad` from the quadrature module, and TensorFlow's automatic
differentiation `tf.gradients`) are passed in as explicit function parameters,
so every theorem quantifies over them.
-/

namespace GPflow

/-- `active_dims` of a kernel (kernels.py, `Kern.__init__`): either a
contiguous slice `slice(n)` (stored when `active_dims is None`) or an explicit
list of column indices. -/
inductive ActiveDims where
  | range (n : ℕ)
  | explicit (idxs : List ℕ)
deriving DecidableEq

/-- A dense real matrix: `w` is the static column count (TensorFlow's
`tf.shape(X)[1]`), `rows` the data.  Well-formedness (`wfB`) says every row
has exactly `w` entries. -/
structure Mat where
  w : ℕ
  rows : List (List ℝ)

/-- Every row has length `w` (rectangularity of the matrix). -/
def Mat.wfB (m : Mat) : Bool := m.rows.all (fun r => r.length == m.w)

/-- Column count after slicing a `d`-column matrix with `active_dims`
(python slicing clamps a slice to the available columns). -/
def sliceWidth : ActiveDims → ℕ → ℕ
  | .range n, d => min n d
  | .explicit l, _ => l.length

/-- Restrict one row to the active columns.  The gather case models
`tf.gather(tf.transpose(X), active_dims)`; an out-of-range index is given the
default 0 (TensorFlow would fail there; no claim exercises that case). -/
def sliceRow : ActiveDims → List ℝ → List ℝ
  | .range n, r => r.take n
  | .explicit l, r => l.map (fun i => r.getD i 0)

/-- Column restriction of a whole matrix. -/
def Mat.slice (ad : ActiveDims) (m : Mat) : Mat :=
  ⟨sliceWidth ad m.w, m.rows.map (sliceRow ad)⟩

/-- `Kern._slice` (kernels.py lines 68-89): slice `X` (and `X2` when present)
to the active columns, then assert that the resulting column count of `X`
equals `input_dim` (the `tf.assert_equal` under `tf.control_dependencies`),
failing with a shape error otherwise.  Note the source checks only `X`'s
width, not `X2`'s. -/
def Kern_slice (inputDim : ℕ) (ad : ActiveDims) (X : Mat) (X2 : Option Mat) :
    Except String (Mat × Option Mat) :=
  let Xs := X.slice ad
  let X2s := X2.map (Mat.slice ad)
  if Xs.w = inputDim then .ok (Xs, X2s)
  else .error "ShapeError: post-slice column count differs from input_dim"

/-- `true` on `.ok`, `false` on `.error`. -/
def exOk {α : Type} : Except String α → Bool
  | .ok _ => true
  | .error _ => false

/-- A full diagonal matrix from a vector (`tf.matrix_diag` on one row). -/
def diagMat (r : List ℝ) : List (List ℝ) :=
  (List.range r.length).map (fun i =>
    (List.range r.length).map (fun j => if i = j then r.getD i 0 else 0))

/-- Covariance input to the expectation operations: either a batch of full
`D x D` matrices (`N x D x D`) or diagonals only (`N x D`). -/
inductive CovInput where
  | full (t : List (List (List ℝ)))
  | diag (d : List (List ℝ))

/-- The rank-2 case of `_slice_cov` is first expanded to full diagonal
matrices (`tf.matrix_diag`). -/
def covExpand : CovInput → List (List (List ℝ))
  | .full t => t
  | .diag d => d.map diagMat

/-- Slice rows and columns of one covariance matrix by the active dims. -/
def sliceCovMat (ad : ActiveDims) (m : List (List ℝ)) : List (List ℝ) :=
  match ad with
  | .range n => (m.take n).map (fun r => r.take n)
  | .explicit l => l.map (fun i => l.map (fun j => (m.getD i []).getD j 0))

/-- `Kern._slice_cov` (kernels.py lines 91-111): expand a diagonal-only input
and slice both index axes.  It performs no shape assertion. -/
def Kern_slice_cov (ad : ActiveDims) (cov : CovInput) : List (List (List ℝ)) :=
  (covExpand cov).map (sliceCovMat ad)

/-! ### Quadrature gating (`Kern._check_quadrature` and the four expectation
operations, kernels.py lines 147-239).  The numeric quadrature itself lives in
the external quadrature module (`mvnquad`), so it is a function parameter
here; only the policy gate, the slicing and the joint-distribution assembly of
`exKxz` are code of this file. -/

/-- Warning text emitted in `warn` mode (modulo the kernel's type name that
the source interpolates). -/
def quadWarnMsg : String :=
  "Using numerical quadrature for kernel expectation. Use gpflow.ekernels instead."

/-- Warnings emitted by `_check_quadrature`. -/
def quadWarnings (policy : String) : List String :=
  if policy = "warn" then [quadWarnMsg] else []

/-- The raising condition of `_check_quadrature`:
`settings.numerics.ekern_quadrature == "error" or num_gauss_hermite_points == 0`. -/
def quadRefused (policy : String) (pts : ℕ) : Bool :=
  policy == "error" || pts == 0

/-- Message of the `RuntimeError` raised by `_check_quadrature`. -/
def quadErrMsg : String := "Settings indicate that quadrature may not be used."

/-- `Kern.eKdiag`: check the quadrature gate, slice `Xmu` and `Xcov`, then
hand over to the quadrature routine `quad` (external `mvnquad`). -/
def eKdiag (policy : String) (pts : ℕ) (inputDim : ℕ) (ad : ActiveDims)
    (quad : Mat → List (List (List ℝ)) → List ℝ)
    (Xmu : Mat) (Xcov : CovInput) : List String × Except String (List ℝ) :=
  (quadWarnings policy,
    if quadRefused policy pts then .error quadErrMsg
    else
      match Kern_slice inputDim ad Xmu none with
      | .error e => .error e
      | .ok (Xmu2, _) => .ok (quad Xmu2 (Kern_slice_cov ad Xcov)))

/-- `Kern.eKxz`: gate, slice `(Xmu, Z)` and `Xcov`, quadrature. -/
def eKxz (policy : String) (pts : ℕ) (inputDim : ℕ) (ad : ActiveDims)
    (quad : Mat → Mat → List (List (List ℝ)) → List (List ℝ))
    (Z Xmu : Mat) (Xcov : CovInput) :
    List String × Except String (List (List ℝ)) :=
  (quadWarnings policy,
    if quadRefused policy pts then .error quadErrMsg
    else
      match Kern_slice inputDim ad Xmu (some Z) with
      | .error e => .error e
      | .ok (Xmu2, Z2) => .ok (quad Xmu2 (Z2.getD Z) (Kern_slice_cov ad Xcov)))

/-- `Kern.eKzxKxz`: gate, slice `(Xmu, Z)` and `Xcov`, quadrature of the
outer product. -/
def eKzxKxz (policy : String) (pts : ℕ) (inputDim : ℕ) (ad : ActiveDims)
    (quad : Mat → Mat → List (List (List ℝ)) → List (List (List ℝ)))
    (Z Xmu : Mat) (Xcov : CovInput) :
    List String × Except String (List (List (List ℝ))) :=
  (quadWarnings policy,
    if quadRefused policy pts then .error quadErrMsg
    else
      match Kern_slice inputDim ad Xmu (some Z) with
      | .error e => .error e
      | .ok (Xmu2, Z2) => .ok (quad Xmu2 (Z2.getD Z) (Kern_slice_cov ad Xcov)))

/-- Concatenate two equal-height matrices along columns (`tf.concat` axis 2 on
one batch element). -/
def matConcatCols (A B : List (List ℝ)) : List (List ℝ) :=
  List.zipWith (fun a b => a ++ b) A B

/-- `Kern.exKxz`: gate, assert `tf.shape(Xmu)[1]` equals the input dimension,
assemble the joint mean/covariance of consecutive pairs (no dimension slicing
here, per the source comment), and hand over to quadrature.  `Xcov` is the
pair `(Xcov[0], Xcov[1])` of marginal and cross covariances. -/
def exKxz (policy : String) (pts : ℕ) (inputDim : ℕ)
    (quad : List (List ℝ) → List (List (List ℝ)) → Mat → List (List (List ℝ)))
    (Z Xmu : Mat)
    (Xcov : List (List (List ℝ)) × List (List (List ℝ))) :
    List String × Except String (List (List (List ℝ))) :=
  (quadWarnings policy,
    if quadRefused policy pts then .error quadErrMsg
    else if Xmu.w ≠ inputDim then
      .error "ShapeError: Numerical quadrature needs to know correct shape of Xmu."
    else
      let fXmu := List.zipWith (fun a b => a ++ b) Xmu.rows.dropLast Xmu.rows.tail
      let fXcovt := List.zipWith matConcatCols Xcov.1.dropLast Xcov.2.dropLast
      let fXcovb :=
        List.zipWith matConcatCols (Xcov.2.dropLast.map List.transpose) Xcov.1.tail
      let fXcov := List.zipWith (fun a b => a ++ b) fXcovt fXcovb
      .ok (quad fXmu fXcov Z))

/-! ### Stationary distance computation and the RBF kernel
(kernels.py lines 290-358). -/

/-- Inner product of two vectors (row of `tf.matmul(X, X2, transpose_b=True)`). -/
def dot (a b : List ℝ) : ℝ := (List.zipWith (fun x y => x * y) a b).sum

/-- `tf.reduce_sum(tf.square(X), 1)` for one row. -/
def sqnorm (a : List ℝ) : ℝ := (a.map (fun x => x ^ 2)).sum

/-- `Stationary.square_dist`: rescale by the lengthscale, then use the matmul
identity `-2 a.b + |a|^2 + |b|^2` entrywise. -/
noncomputable def square_dist (l : ℝ) (X : List (List ℝ))
    (X2 : Option (List (List ℝ))) : List (List ℝ) :=
  let Xl := X.map (fun r => r.map (fun x => x / l))
  match X2 with
  | none => Xl.map (fun a => Xl.map (fun b => -2 * dot a b + sqnorm a + sqnorm b))
  | some Y =>
    let Yl := Y.map (fun r => r.map (fun x => x / l))
    Xl.map (fun a => Yl.map (fun b => -2 * dot a b + sqnorm a + sqnorm b))

/-- The RBF formula `variance * exp(-square_dist / 2)` on presliced data. -/
noncomputable def rbfCore (v l : ℝ) (X : List (List ℝ))
    (X2 : Option (List (List ℝ))) : List (List ℝ) :=
  (square_dist l X X2).map (List.map (fun d => v * Real.exp (-d / 2)))

/-- `RBF.K(X, X2=None, presliced=False)` (kernels.py lines 355-358): slice
unless presliced, then apply the RBF formula.  `v` is the variance, `l` the
(non-ARD, scalar) lengthscale. -/
noncomputable def RBF_K (v l : ℝ) (inputDim : ℕ) (ad : ActiveDims)
    (X : Mat) (X2 : Option Mat) (presliced : Bool) :
    Except String (List (List ℝ)) :=
  if presliced then .ok (rbfCore v l X.rows (X2.map Mat.rows))
  else (Kern_slice inputDim ad X X2).map
    (fun p => rbfCore v l p.1.rows (p.2.map Mat.rows))

/-- `Constant.K`: every entry equals the variance. -/
def Constant_K (v : ℝ) (X : Mat) (X2 : Option Mat) : List (List ℝ) :=
  X.rows.map (fun _ => (X2.getD X).rows.map (fun _ => v))

/-- The closed-form diagonal shortcut shared by `Static.Kdiag` and
`Stationary.Kdiag`: a constant fill of the variance, ignoring the values
in `X`. -/
def Static_Kdiag (v : ℝ) (X : Mat) : List ℝ := X.rows.map (fun _ => v)

/-! ### Combination kernels (kernels.py lines 681-773). -/

/-- Kernel trees as seen by `Combination.__init__`'s flattening pass: a base
kernel (identified by a label) or an Add / Prod combination holding its
(already constructed) child list. -/
inductive KTree where
  | base (id : ℕ)
  | add (ks : List KTree)
  | prod (ks : List KTree)

/-- `isinstance(k, Add)`. -/
def KTree.isAdd : KTree → Bool
  | .add _ => true
  | _ => false

/-- `isinstance(k, Prod)`. -/
def KTree.isProd : KTree → Bool
  | .prod _ => true
  | _ => false

/-- The stored `kern_list` of a combination (empty for a base kernel). -/
def KTree.children : KTree → List KTree
  | .base _ => []
  | .add ks => ks
  | .prod ks => ks

/-- One step of the flattening loop for `Add`: a child that is itself an `Add`
contributes its own children (`self.kern_list.extend(k.kern_list)`), any other
child is appended as is. -/
def expandAdd : KTree → List KTree
  | .add cs => cs
  | k => [k]

/-- One step of the flattening loop for `Prod`. -/
def expandProd : KTree → List KTree
  | .prod cs => cs
  | k => [k]

/-- Concatenation of a list of lists. -/
def concatAll {α : Type} : List (List α) → List α
  | [] => []
  | x :: xs => x ++ concatAll xs

/-- Constructing `Add(kern_list)`: the flattening pass of
`Combination.__init__` (kernels.py lines 727-733) applied with
`self.__class__ = Add`. -/
def mkAdd (ks : List KTree) : KTree := .add (concatAll (ks.map expandAdd))

/-- Constructing `Prod(kern_list)`. -/
def mkProd (ks : List KTree) : KTree := .prod (concatAll (ks.map expandProd))

/-- No direct child of an `Add` node is itself an `Add` (the flattening
invariant at the top level; for other nodes the predicate is vacuous). -/
def topFlatAdd : KTree → Bool
  | .add cs => cs.all (fun c => !c.isAdd)
  | _ => true

/-- No direct child of a `Prod` node is itself a `Prod`. -/
def topFlatProd : KTree → Bool
  | .prod cs => cs.all (fun c => !c.isProd)
  | _ => true

/-- `np.max` over a list of naturals (0 on the empty list, on which the
source's `np.max` would instead fail). -/
def listMax (l : List ℕ) : ℕ := l.foldl max 0

/-- Per-child term of the `input_dim` inference of `Combination.__init__`
(kernels.py lines 721-724): `k.input_dim` when `active_dims` is a slice,
`np.max(k.active_dims) + 1` otherwise.  A child is represented by its pair
`(input_dim, active_dims)`, which is all the source reads. -/
def childContrib : ℕ × ActiveDims → ℕ
  | (n, .range _) => n
  | (_, .explicit l) => listMax l + 1

/-- The inferred `input_dim` of a combination: the maximum of the per-child
terms. -/
def combInputDim (ks : List (ℕ × ActiveDims)) : ℕ :=
  listMax (ks.map childContrib)

/-- Follows the spec's words (for comparison with `combInputDim`): a
range-based child "contributes `input_dim - 1`", an explicit-index child
"contributes `max(active_dims)`". -/
def specChildContrib : ℕ × ActiveDims → ℕ
  | (n, .range _) => n - 1
  | (_, .explicit l) => listMax l

/-- Follows the spec's words: "`input_dim` of a combination is the maximum
dimension index touched by any child". -/
def specCombInputDim (ks : List (ℕ × ActiveDims)) : ℕ :=
  listMax (ks.map specChildContrib)

/-- Replace the first occurrence of `a` in the list by `b`
(`names[names.index(a)] = b`). -/
def replaceFirst : List String → String → String → List String
  | [], _, _ => []
  | x :: xs, a, b => if x = a then b :: xs else x :: replaceFirst xs a b

/-- Update the count stored for key `a` in the association list. -/
def setCount (d : List (String × ℕ)) (a : String) (c : ℕ) : List (String × ℕ) :=
  d.map (fun p => if p.1 = a then (a, c) else p)

/-- Body of the loop of `make_kernel_names` (kernels.py lines 690-704), acting
on the accumulated `(names, counting_dict)` for one lower-cased class name. -/
def mknStep (acc : List String × List (String × ℕ)) (raw : String) :
    List String × List (String × ℕ) :=
  match List.lookup raw acc.2 with
  | some c =>
    let names := if c = 1 then replaceFirst acc.1 raw (raw ++ "_1") else acc.1
    (names ++ [raw ++ "_" ++ toString (c + 1)], setCount acc.2 raw (c + 1))
  | none => (acc.1 ++ [raw], acc.2 ++ [(raw, 1)])

/-- Python's `str.lower()` on one (ASCII) class name, written through the
character list so that it evaluates by kernel reduction. -/
def lowerName (s : String) : String := String.mk (s.data.map Char.toLower)

/-- `k.__class__.__name__.lower()` applied to a list of class names. -/
def lowerNames (l : List String) : List String := l.map lowerName

/-- `make_kernel_names` (kernels.py lines 681-705), taking the children's
class names. -/
def make_kernel_names (classNames : List String) : List String :=
  ((lowerNames classNames).foldl mknStep ([], [])).1

/-- Elementwise matrix sum (`tf.add` on same-shape inputs). -/
def matAdd (A B : List (List ℝ)) : List (List ℝ) :=
  List.zipWith (List.zipWith (fun x y => x + y)) A B

/-- Elementwise matrix product (`tf.multiply` on same-shape inputs). -/
def matMulE (A B : List (List ℝ)) : List (List ℝ) :=
  List.zipWith (List.zipWith (fun x y => x * y)) A B

/-- Elementwise vector sum. -/
def vecAdd (a b : List ℝ) : List ℝ := List.zipWith (fun x y => x + y) a b

/-- Elementwise vector product. -/
def vecMulE (a b : List ℝ) : List ℝ := List.zipWith (fun x y => x * y) a b

/-- A child kernel as the combination sees it: its `K` method, taking the full
input matrices. -/
abbrev ChildK := Mat → Option Mat → Except String (List (List ℝ))

/-- A child kernel's `Kdiag` method. -/
abbrev ChildKdiag := Mat → Except String (List ℝ)

/-- `functools.reduce(op, vals)` (fails on an empty sequence, as in python). -/
def reduceK {α : Type} (op : α → α → α) (vals : List α) : Except String α :=
  match vals with
  | [] => .error "TypeError: reduce of empty sequence"
  | v :: vs => .ok (vs.foldl op v)

/-- `Add.K` (kernels.py lines 761-762): every child gets the unsliced inputs,
results are reduced with `tf.add`; the `presliced` parameter is never read. -/
def AddK (ks : List ChildK) (X : Mat) (X2 : Option Mat) (presliced : Bool) :
    Except String (List (List ℝ)) :=
  (ks.mapM (fun (k : ChildK) => k X X2)).bind (reduceK matAdd)

/-- `Prod.K` (kernels.py lines 769-770). -/
def ProdK (ks : List ChildK) (X : Mat) (X2 : Option Mat) (presliced : Bool) :
    Except String (List (List ℝ)) :=
  (ks.mapM (fun (k : ChildK) => k X X2)).bind (reduceK matMulE)

/-- `Add.Kdiag` (kernels.py lines 764-765). -/
def AddKdiag (ks : List ChildKdiag) (X : Mat) (presliced : Bool) :
    Except String (List ℝ) :=
  (ks.mapM (fun (k : ChildKdiag) => k X)).bind (reduceK vecAdd)

/-- `Prod.Kdiag` (kernels.py lines 772-773). -/
def ProdKdiag (ks : List ChildKdiag) (X : Mat) (presliced : Bool) :
    Except String (List ℝ) :=
  (ks.mapM (fun (k : ChildKdiag) => k X)).bind (reduceK vecMulE)

/-- An RBF kernel wrapped as a combination child: its `K` is called with the
default `presliced=False`, so it slices its own active dimensions. -/
noncomputable def rbfChild (v l : ℝ) (inputDim : ℕ) (ad : ActiveDims) : ChildK :=
  fun X X2 => RBF_K v l inputDim ad X X2 false

/-! ### Which `K` / `Kdiag` signatures take a `presliced` argument.
These two tables record, class by class, whether the method signature in
kernels.py includes `presliced`: `Coregion.K` (line 664), `Coregion.Kdiag`
(line 674), `Static.Kdiag` (line 252, inherited by White/Constant/Bias) and
both differential kernels' `K`/`Kdiag` (lines 823, 855, 907, 927) do not. -/

/-- The concrete kernel classes of kernels.py. -/
inductive KernelClass where
  | white | constant | bias | rbf | exponential | matern12 | matern32
  | matern52 | cosine | linear | polynomial | arcCosine | periodic
  | coregion | add | prod | diffPreDefined | diffDynamic
deriving DecidableEq

/-- Whether the class's `K` method signature has a `presliced` parameter. -/
def K_acceptsPresliced : KernelClass → Bool
  | .coregion => false
  | .diffPreDefined => false
  | .diffDynamic => false
  | _ => true

/-- Whether the class's `Kdiag` method signature has a `presliced` parameter
(`White`, `Constant` and `Bias` inherit `Static.Kdiag(self, X)`). -/
def Kdiag_acceptsPresliced : KernelClass → Bool
  | .white => false
  | .constant => false
  | .bias => false
  | .coregion => false
  | .diffPreDefined => false
  | .diffDynamic => false
  | _ => true

/-! ### Differential observation kernels (kernels.py lines 776-1043).
`tf.gradients` is abstract here: the static engine takes two oracles `DL`,
`DR` giving the value of one more left/right partial derivative of the scalar
kernel entry, the dynamic engine takes an oracle for each dispatch branch. -/

/-- The loop `for _, d in zip(range(num_derivs), deriv_order): k = grad(k)[i, d]`:
apply the derivative step once per `zip(range num, dims)` element. -/
def applyDerivs (step : ℤ → ℝ → ℝ) (num : ℕ) (dims : List ℤ) (k : ℝ) : ℝ :=
  ((List.range num).zip dims).foldl (fun acc p => step p.2 acc) k

/-- Column 0 of a derivative-information row: the number of derivatives
(python's `range` treats a negative count as zero iterations). -/
def derivNum (row : List ℤ) : ℕ := (row.headD 0).toNat

/-- Columns 1.. of a derivative-information row: the dimension indices. -/
def derivDims (row : List ℤ) : List ℤ := row.tail

/-- `DifferentialObservationsKernelPreDefined.K` (kernels.py lines 823-853):
base kernel on the raw coordinates, then per (i,j) the left derivatives
followed by the right derivatives.  With `X2 = none` the right side reuses `X`
and `deriv_info_x`. -/
def DiffPre_K (baseK : Mat → Mat → List (List ℝ)) (DL DR : ℕ → ℤ → ℝ → ℝ)
    (derivX derivX2 : List (List ℤ)) (X : Mat) (X2 : Option Mat) :
    List (List ℝ) :=
  let X2v := X2.getD X
  let dinfo2 := match X2 with
    | none => derivX
    | some _ => derivX2
  let raw := baseK X X2v
  (List.range derivX.length).map (fun i =>
    (List.range dinfo2.length).map (fun j =>
      let kij := (raw.getD i []).getD j 0
      let rowi := derivX.getD i []
      let rowj := dinfo2.getD j []
      applyDerivs (DR j) (derivNum rowj) (derivDims rowj)
        (applyDerivs (DL i) (derivNum rowi) (derivDims rowi) kij)))

/-- `tf.diag_part`. -/
def diagPart (m : List (List ℝ)) : List ℝ :=
  (List.range m.length).map (fun i => (m.getD i []).getD i 0)

/-- `DifferentialObservationsKernelPreDefined.Kdiag` (kernels.py lines
855-861): the full `K(X)` followed by `tf.diag_part`, deliberately not the
base kernel's closed-form diagonal. -/
def DiffPre_Kdiag (baseK : Mat → Mat → List (List ℝ)) (DL DR : ℕ → ℤ → ℝ → ℝ)
    (derivX derivX2 : List (List ℤ)) (X : Mat) : List ℝ :=
  diagPart (DiffPre_K baseK DL DR derivX derivX2 X none)

/-- The eight non-trivial branches of the dynamic dispatch table, keyed by
`(num_left_derivs, num_right_derivs)`. -/
inductive DynBranch where
  | d10 | d01 | d20 | d11 | d02 | d21 | d12 | d22

/-- The `tf.case` dispatch of `_k_correct_dynamic` (kernels.py lines
1012-1037): mutually exclusive tests on the two derivative counts, with the
raw kernel value as the default (in particular for counts `(0, 0)`). -/
def kCorrectEntry (bv : DynBranch → ℝ) (k : ℝ) (nl nr : ℤ) : ℝ :=
  if nl = 1 ∧ nr = 0 then bv .d10
  else if nl = 0 ∧ nr = 1 then bv .d01
  else if nl = 2 ∧ nr = 0 then bv .d20
  else if nl = 1 ∧ nr = 1 then bv .d11
  else if nl = 0 ∧ nr = 2 then bv .d02
  else if nl = 2 ∧ nr = 1 then bv .d21
  else if nl = 1 ∧ nr = 2 then bv .d12
  else if nl = 2 ∧ nr = 2 then bv .d22
  else k

/-- `tf.argmax` over one row: index of the first occurrence of the maximum
(0 on the empty row, on which TensorFlow would fail). -/
def argmaxIdx : List ℤ → ℕ
  | [] => 0
  | [_] => 0
  | x :: xs =>
    let j := argmaxIdx xs
    if x < xs.getD j 0 then j + 1 else 0

/-- Subtract `tf.one_hot(idx, depth)` from an integer row. -/
def subOneAt : List ℤ → ℕ → List ℤ
  | [], _ => []
  | x :: xs, 0 => (x - 1) :: xs
  | x :: xs, n + 1 => x :: subOneAt xs n

/-- `_convert_grad_info_into_indics` for one mask row (kernels.py lines
940-969): total count = row sum, first index = argmax, second index = argmax
after removing one occurrence at the first index. -/
def convertRow (mask : List ℤ) : ℤ × ℕ × ℕ :=
  let first := argmaxIdx mask
  (mask.sum, first, argmaxIdx (subOneAt mask first))

/-- `tf.to_int32` on a mask value; the source documents the mask entries as
nonnegative integers, where truncation and floor agree. -/
noncomputable def castInt (r : ℝ) : ℤ := ⌊r⌋

/-- `DifferentialObservationsKernelDynamic.K` (kernels.py lines 907-925 and
971-1043): split each row into leading coordinates and trailing derivative
mask, decode the masks, evaluate the base kernel on the coordinates, and run
the dispatch per entry.  `Dyn i j (idxI, idxJ) (idxK, idxM)` is the
autodifferentiation oracle for the branch values at entry `(i, j)` with the
decoded dimension indices. -/
noncomputable def DiffDyn_K (baseK : Mat → Mat → List (List ℝ))
    (Dyn : ℕ → ℕ → ℕ × ℕ → ℕ × ℕ → DynBranch → ℝ) (obsDims : ℕ)
    (X : Mat) (X2 : Option Mat) : List (List ℝ) :=
  let X2v := X2.getD X
  let locs1 := X.rows.map (fun r => r.take obsDims)
  let mask1 := X.rows.map (fun r => (r.drop (r.length - obsDims)).map castInt)
  let locs2 := X2v.rows.map (fun r => r.take obsDims)
  let mask2 := X2v.rows.map (fun r => (r.drop (r.length - obsDims)).map castInt)
  let d1 := mask1.map convertRow
  let d2 := mask2.map convertRow
  let raw := baseK ⟨obsDims, locs1⟩ ⟨obsDims, locs2⟩
  (List.range locs1.length).map (fun i =>
    (List.range locs2.length).map (fun j =>
      let kij := (raw.getD i []).getD j 0
      let ci := d1.getD i (0, 0, 0)
      let cj := d2.getD j (0, 0, 0)
      kCorrectEntry (Dyn i j ci.2 cj.2) kij ci.1 cj.1))

/-- `DifferentialObservationsKernelDynamic.Kdiag` (kernels.py lines 927-933):
again the full `K(X)` followed by `tf.diag_part`. -/
noncomputable def DiffDyn_Kdiag (baseK : Mat → Mat → List (List ℝ))
    (Dyn : ℕ → ℕ → ℕ × ℕ → ℕ × ℕ → DynBranch → ℝ) (obsDims : ℕ)
    (X : Mat) : List ℝ :=
  diagPart (DiffDyn_K baseK Dyn obsDims X none)

/-- A range-selector child whose declared `input_dim` is positive (the
construction surface requires a positive `input_dim`); explicit-index children
carry no such side condition here. -/
def rangeChildPos (c : ℕ × ActiveDims) : Bool :=
  match c.2 with
  | .range _ => decide (1 ≤ c.1)
  | .explicit _ => true

/-! ### The remaining kernels whose `K`/`Kdiag` signatures take `presliced`
(kernels.py lines 242-628).  They fall in two groups: methods that read the
input columns guard their formula with `if not presliced: self._slice(X, X2)`,
while `White.K`/`Constant.K` and the constant-fill `Kdiag` of `Stationary` and
`PeriodicKernel` accept the flag but never read it and never slice. -/

/-- `Stationary.euclid_dist` (kernels.py lines 342-344): `sqrt(r2 + 1e-12)`
entrywise on `square_dist`. -/
noncomputable def euclid_dist (l : ℝ) (X : List (List ℝ))
    (X2 : Option (List (List ℝ))) : List (List ℝ) :=
  (square_dist l X X2).map (List.map (fun r2 => Real.sqrt (r2 + 1e-12)))

/-- The Exponential formula `variance * exp(-0.5 r)` on presliced data. -/
noncomputable def expCore (v l : ℝ) (X : List (List ℝ))
    (X2 : Option (List (List ℝ))) : List (List ℝ) :=
  (euclid_dist l X X2).map (List.map (fun r => v * Real.exp (-0.5 * r)))

/-- `Exponential.K` (kernels.py lines 429-433). -/
noncomputable def Exponential_K (v l : ℝ) (inputDim : ℕ) (ad : ActiveDims)
    (X : Mat) (X2 : Option Mat) (presliced : Bool) :
    Except String (List (List ℝ)) :=
  if presliced then .ok (expCore v l X.rows (X2.map Mat.rows))
  else (Kern_slice inputDim ad X X2).map
    (fun p => expCore v l p.1.rows (p.2.map Mat.rows))

/-- The Matern 1/2 formula `variance * exp(-r)` on presliced data. -/
noncomputable def m12Core (v l : ℝ) (X : List (List ℝ))
    (X2 : Option (List (List ℝ))) : List (List ℝ) :=
  (euclid_dist l X X2).map (List.map (fun r => v * Real.exp (-r)))

/-- `Matern12.K` (kernels.py lines 441-445). -/
noncomputable def Matern12_K (v l : ℝ) (inputDim : ℕ) (ad : ActiveDims)
    (X : Mat) (X2 : Option Mat) (presliced : Bool) :
    Except String (List (List ℝ)) :=
  if presliced then .ok (m12Core v l X.rows (X2.map Mat.rows))
  else (Kern_slice inputDim ad X X2).map
    (fun p => m12Core v l p.1.rows (p.2.map Mat.rows))

/-- The Matern 3/2 formula `variance (1 + sqrt3 r) exp(-sqrt3 r)`. -/
noncomputable def m32Core (v l : ℝ) (X : List (List ℝ))
    (X2 : Option (List (List ℝ))) : List (List ℝ) :=
  (euclid_dist l X X2).map (List.map (fun r =>
    v * (1 + Real.sqrt 3 * r) * Real.exp (-(Real.sqrt 3) * r)))

/-- `Matern32.K` (kernels.py lines 453-458). -/
noncomputable def Matern32_K (v l : ℝ) (inputDim : ℕ) (ad : ActiveDims)
    (X : Mat) (X2 : Option Mat) (presliced : Bool) :
    Except String (List (List ℝ)) :=
  if presliced then .ok (m32Core v l X.rows (X2.map Mat.rows))
  else (Kern_slice inputDim ad X X2).map
    (fun p => m32Core v l p.1.rows (p.2.map Mat.rows))

/-- The Matern 5/2 formula `variance (1 + sqrt5 r + 5/3 r^2) exp(-sqrt5 r)`. -/
noncomputable def m52Core (v l : ℝ) (X : List (List ℝ))
    (X2 : Option (List (List ℝ))) : List (List ℝ) :=
  (euclid_dist l X X2).map (List.map (fun r =>
    v * (1 + Real.sqrt 5 * r + 5 / 3 * r ^ 2) * Real.exp (-(Real.sqrt 5) * r)))

/-- `Matern52.K` (kernels.py lines 466-471). -/
noncomputable def Matern52_K (v l : ℝ) (inputDim : ℕ) (ad : ActiveDims)
    (X : Mat) (X2 : Option Mat) (presliced : Bool) :
    Except String (List (List ℝ)) :=
  if presliced then .ok (m52Core v l X.rows (X2.map Mat.rows))
  else (Kern_slice inputDim ad X X2).map
    (fun p => m52Core v l p.1.rows (p.2.map Mat.rows))

/-- The Cosine formula `variance * cos(r)`. -/
noncomputable def cosCore (v l : ℝ) (X : List (List ℝ))
    (X2 : Option (List (List ℝ))) : List (List ℝ) :=
  (euclid_dist l X X2).map (List.map (fun r => v * Real.cos r))

/-- `Cosine.K` (kernels.py lines 479-483). -/
noncomputable def Cosine_K (v l : ℝ) (inputDim : ℕ) (ad : ActiveDims)
    (X : Mat) (X2 : Option Mat) (presliced : Bool) :
    Except String (List (List ℝ)) :=
  if presliced then .ok (cosCore v l X.rows (X2.map Mat.rows))
  else (Kern_slice inputDim ad X X2).map
    (fun p => cosCore v l p.1.rows (p.2.map Mat.rows))

/-- The Linear formula `matmul(X * variance, X2, transpose_b=True)`
(non-ARD scalar variance) on presliced data. -/
def linCore (v : ℝ) (X : List (List ℝ)) (X2 : Option (List (List ℝ))) :
    List (List ℝ) :=
  let Y := X2.getD X
  X.map (fun a => Y.map (fun b => dot (a.map (fun x => x * v)) b))

/-- `Linear.K` (kernels.py lines 384-390). -/
def Linear_K (v : ℝ) (inputDim : ℕ) (ad : ActiveDims)
    (X : Mat) (X2 : Option Mat) (presliced : Bool) :
    Except String (List (List ℝ)) :=
  if presliced then .ok (linCore v X.rows (X2.map Mat.rows))
  else (Kern_slice inputDim ad X X2).map
    (fun p => linCore v p.1.rows (p.2.map Mat.rows))

/-- `Linear.Kdiag` (kernels.py lines 392-395):
`reduce_sum(square(X) * variance, 1)`, slicing unless presliced. -/
def Linear_Kdiag (v : ℝ) (inputDim : ℕ) (ad : ActiveDims)
    (X : Mat) (presliced : Bool) : Except String (List ℝ) :=
  if presliced then .ok (X.rows.map (fun r => (r.map (fun x => x ^ 2 * v)).sum))
  else (Kern_slice inputDim ad X none).map
    (fun p => p.1.rows.map (fun r => (r.map (fun x => x ^ 2 * v)).sum))

/-- `Polynomial.K` (kernels.py lines 417-418):
`(Linear.K(..., presliced=presliced) + offset) ** degree`, so the `presliced`
flag is forwarded to `Linear.K`, which does the slicing. -/
noncomputable def Polynomial_K (v degree offset : ℝ) (inputDim : ℕ)
    (ad : ActiveDims) (X : Mat) (X2 : Option Mat) (presliced : Bool) :
    Except String (List (List ℝ)) :=
  (Linear_K v inputDim ad X X2 presliced).map
    (fun M => M.map (List.map (fun x => (x + offset) ^ degree)))

/-- `Polynomial.Kdiag` (kernels.py lines 420-421). -/
noncomputable def Polynomial_Kdiag (v degree offset : ℝ) (inputDim : ℕ)
    (ad : ActiveDims) (X : Mat) (presliced : Bool) : Except String (List ℝ) :=
  (Linear_Kdiag v inputDim ad X presliced).map
    (fun d => d.map (fun x => (x + offset) ^ degree))

/-- `ArcCosine._weighted_product(X)` for one row (kernels.py lines 545-549),
non-ARD scalar weight variance `w` and bias variance `b`. -/
def wprodSelf (w b : ℝ) (r : List ℝ) : ℝ := (r.map (fun x => w * x ^ 2)).sum + b

/-- `ArcCosine._weighted_product(X, X2)` for one pair of rows. -/
def wprodPair (w b : ℝ) (a c : List ℝ) : ℝ := dot (a.map (fun x => w * x)) c + b

/-- `ArcCosine._J` (kernels.py lines 551-562).  Orders outside 0, 1, 2 are
rejected by the constructor, so the catch-all value is unreachable for
constructed kernels. -/
noncomputable def arcJ (order : ℕ) (theta : ℝ) : ℝ :=
  match order with
  | 0 => Real.pi - theta
  | 1 => Real.sin theta + (Real.pi - theta) * Real.cos theta
  | 2 => 3 * Real.sin theta * Real.cos theta +
      (Real.pi - theta) * (1 + 2 * Real.cos theta ^ 2)
  | _ => 0

/-- The ArcCosine formula (kernels.py lines 568-582) on presliced data. -/
noncomputable def arcCore (order : ℕ) (v w b : ℝ) (X : List (List ℝ))
    (X2 : Option (List (List ℝ))) : List (List ℝ) :=
  let Xden := X.map (fun a => Real.sqrt (wprodSelf w b a))
  let Y := X2.getD X
  let Yden := match X2 with
    | none => Xden
    | some Y2 => Y2.map (fun c => Real.sqrt (wprodSelf w b c))
  (X.zip Xden).map (fun pa => (Y.zip Yden).map (fun pc =>
    let jitter : ℝ := 1e-15
    let cosT := wprodPair w b pa.1 pc.1 / pa.2 / pc.2
    let theta := Real.arccos (jitter + (1 - 2 * jitter) * cosT)
    v * (1 / Real.pi) * arcJ order theta * pa.2 ^ order * pc.2 ^ order))

/-- `ArcCosine.K` (kernels.py lines 564-582). -/
noncomputable def ArcCosine_K (order : ℕ) (v w b : ℝ) (inputDim : ℕ)
    (ad : ActiveDims) (X : Mat) (X2 : Option Mat) (presliced : Bool) :
    Except String (List (List ℝ)) :=
  if presliced then .ok (arcCore order v w b X.rows (X2.map Mat.rows))
  else (Kern_slice inputDim ad X X2).map
    (fun p => arcCore order v w b p.1.rows (p.2.map Mat.rows))

/-- `ArcCosine.Kdiag` (kernels.py lines 584-590): `theta = 0` and the weighted
self-product to the `order`-th power, slicing unless presliced. -/
noncomputable def ArcCosine_Kdiag (order : ℕ) (v w b : ℝ) (inputDim : ℕ)
    (ad : ActiveDims) (X : Mat) (presliced : Bool) : Except String (List ℝ) :=
  if presliced then
    .ok (X.rows.map (fun r => v * (1 / Real.pi) * arcJ order 0 *
      wprodSelf w b r ^ order))
  else (Kern_slice inputDim ad X none).map
    (fun p => p.1.rows.map (fun r => v * (1 / Real.pi) * arcJ order 0 *
      wprodSelf w b r ^ order))

/-- The Periodic formula (kernels.py lines 618-628):
`r = sum_d (sin(pi (x_d - y_d) / period) / lengthscale)^2`,
`variance * exp(-r/2)`, on presliced data. -/
noncomputable def periodicCore (v l period : ℝ) (X : List (List ℝ))
    (X2 : Option (List (List ℝ))) : List (List ℝ) :=
  let Y := X2.getD X
  X.map (fun a => Y.map (fun c =>
    let r := (List.zipWith
      (fun x y => (Real.sin (Real.pi * (x - y) / period) / l) ^ 2) a c).sum
    v * Real.exp (-0.5 * r)))

/-- `PeriodicKernel.K` (kernels.py lines 615-628). -/
noncomputable def PeriodicKernel_K (v l period : ℝ) (inputDim : ℕ)
    (ad : ActiveDims) (X : Mat) (X2 : Option Mat) (presliced : Bool) :
    Except String (List (List ℝ)) :=
  if presliced then .ok (periodicCore v l period X.rows (X2.map Mat.rows))
  else (Kern_slice inputDim ad X X2).map
    (fun p => periodicCore v l period p.1.rows (p.2.map Mat.rows))

/-- `White.K` (kernels.py lines 261-267): a diagonal fill of the variance for
one input, a zero matrix for two.  The `presliced` parameter is in the
signature but is never read and `_slice` is never invoked. -/
def White_K (v : ℝ) (X : Mat) (X2 : Option Mat) (presliced : Bool) :
    List (List ℝ) :=
  match X2 with
  | none => diagMat (X.rows.map (fun _ => v))
  | some Y => X.rows.map (fun _ => Y.rows.map (fun _ => (0 : ℝ)))

/-- `Constant.K` (kernels.py lines 275-280), with the `presliced` parameter of
its signature: the body (`Constant_K`) never reads it and never slices. -/
def Constant_Kp (v : ℝ) (X : Mat) (X2 : Option Mat) (presliced : Bool) :
    List (List ℝ) :=
  Constant_K v X X2

/-- `Stationary.Kdiag(self, X, presliced=False)` (kernels.py lines 346-347):
a constant fill of the variance; `presliced` is never read, no slicing. -/
def Stationary_Kdiag_p (v : ℝ) (X : Mat) (presliced : Bool) : List ℝ :=
  X.rows.map (fun _ => v)

/-- `PeriodicKernel.Kdiag(self, X, presliced=False)` (kernels.py lines
612-613): the same constant fill; `presliced` is never read, no slicing. -/
def Periodic_Kdiag_p (v : ℝ) (X : Mat) (presliced : Bool) : List ℝ :=
  X.rows.map (fun _ => v)

/-! ## Helper lemmas -/

theorem map_fn_const {α β : Type} (l : List α) (b : β) :
    l.map (fun _ => b) = List.replicate l.length b := by
  induction l with
  | nil => rfl
  | cons x xs ih => simp [List.replicate, ih]

theorem mem_concatAll {α : Type} {a : α} {ls : List (List α)} :
    a ∈ concatAll ls ↔ ∃ l ∈ ls, a ∈ l := by
  induction ls with
  | nil => simp [concatAll]
  | cons x xs ih => simp [concatAll, ih]

theorem getD_range_map {α : Type} (f : ℕ → α) (n i : ℕ) (d : α) (h : i < n) :
    ((List.range n).map f).getD i d = f i := by
  rw [List.getD_eq_getElem?_getD, List.getElem?_map, List.getElem?_range h]
  rfl

theorem getD_map_lt {α β : Type} (f : α → β) (l : List α) (i : ℕ) (d : β)
    (d' : α) (h : i < l.length) :
    (l.map f).getD i d = f (l.getD i d') := by
  rw [List.getD_eq_getElem?_getD, List.getElem?_map,
    List.getD_eq_getElem?_getD, List.getElem?_eq_getElem h]
  rfl

theorem sliceRow_length (ad : ActiveDims) (r : List ℝ) (d : ℕ)
    (h : r.length = d) : (sliceRow ad r).length = sliceWidth ad d := by
  cases ad with
  | range n => simp [sliceRow, sliceWidth, h]
  | explicit l => simp [sliceRow, sliceWidth]

theorem foldl_max_succ (l : List ℕ) (a : ℕ) :
    List.foldl max (a + 1) (l.map (fun x => x + 1)) = List.foldl max a l + 1 := by
  induction l generalizing a with
  | nil => rfl
  | cons x xs ih =>
    simp only [List.map_cons, List.foldl_cons]
    rw [show max (a + 1) (x + 1) = max a x + 1 by omega]
    exact ih (max a x)

theorem listMax_map_succ (l : List ℕ) (h : l ≠ []) :
    listMax (l.map (fun x => x + 1)) = listMax l + 1 := by
  cases l with
  | nil => exact absurd rfl h
  | cons x xs =>
    simp only [listMax, List.map_cons, List.foldl_cons, Nat.zero_max]
    exact foldl_max_succ xs x

theorem lookup_append_of_none {β : Type} (a : String)
    (d1 d2 : List (String × β)) (h : List.lookup a d1 = none) :
    List.lookup a (d1 ++ d2) = List.lookup a d2 := by
  induction d1 with
  | nil => rfl
  | cons p rest ih =>
    simp only [List.lookup, List.cons_append] at h ⊢
    cases hpq : (a == p.1) with
    | true => simp [hpq] at h
    | false => simp only [hpq] at h ⊢; exact ih h

theorem mkn_fold_nodup (m : List String) (names : List String)
    (dict : List (String × ℕ)) (hl : ∀ r ∈ m, List.lookup r dict = none)
    (hnd : m.Nodup) : (m.foldl mknStep (names, dict)).1 = names ++ m := by
  induction m generalizing names dict with
  | nil => simp
  | cons raw rest ih =>
    have hraw : List.lookup raw dict = none := hl raw (by simp)
    have hstep : mknStep (names, dict) raw = (names ++ [raw], dict ++ [(raw, 1)]) := by
      simp [mknStep, hraw]
    simp only [List.foldl_cons, hstep]
    have hrest : ∀ r ∈ rest, List.lookup r (dict ++ [(raw, 1)]) = none := by
      intro r hr
      rw [lookup_append_of_none r dict _ (hl r (List.mem_cons_of_mem _ hr))]
      have hne : r ≠ raw := by
        intro he
        exact (List.nodup_cons.mp hnd).1 (he ▸ hr)
      have hb : (r == raw) = false := beq_eq_false_iff_ne.mpr hne
      simp [List.lookup, hb]
    rw [ih (names ++ [raw]) (dict ++ [(raw, 1)]) hrest (List.nodup_cons.mp hnd).2]
    simp

theorem matmul_identity (a b : List ℝ) (h : a.length = b.length) :
    -2 * dot a b + sqnorm a + sqnorm b =
      ((a.zip b).map (fun p => (p.1 - p.2) ^ 2)).sum := by
  induction a generalizing b with
  | nil =>
    cases b with
    | nil => simp [dot, sqnorm]
    | cons y ys => simp at h
  | cons x xs ih =>
    cases b with
    | nil => simp at h
    | cons y ys =>
      simp only [List.length_cons, Nat.succ_inj] at h
      have := ih ys h
      simp only [dot, sqnorm, List.zipWith_cons_cons, List.map_cons,
        List.sum_cons, List.zip_cons_cons] at this ⊢
      nlinarith [this]

theorem kCorrectEntry_zero_zero (bv : DynBranch → ℝ) (k : ℝ) :
    kCorrectEntry bv k 0 0 = k := by
  norm_num [kCorrectEntry]

/-! ## Claim theorems -/

/-- C2: constructing a combination flattens same-operator children: every
child that is itself a combination of the same operator is replaced by its
own children, so (given children that themselves satisfy the invariant) the
stored child list contains no combination of the same operator, and
`Add([Add([A,B]),C])` has exactly 3 children. -/
theorem C2_flattening :
    (∀ ks : List KTree, (∀ k ∈ ks, topFlatAdd k = true) →
      (mkAdd ks).children = concatAll (ks.map expandAdd) ∧
      ((mkAdd ks).children.all (fun c => !c.isAdd)) = true) ∧
    (∀ ks : List KTree, (∀ k ∈ ks, topFlatProd k = true) →
      (mkProd ks).children = concatAll (ks.map expandProd) ∧
      ((mkProd ks).children.all (fun c => !c.isProd)) = true) ∧
    (mkAdd [mkAdd [KTree.base 0, KTree.base 1], KTree.base 2]).children.length = 3 := by
  refine ⟨?_, ?_, rfl⟩
  · intro ks hks
    refine ⟨rfl, ?_⟩
    rw [List.all_eq_true]
    intro c hc
    simp only [mkAdd, mkProd, KTree.children] at hc
    rcases mem_concatAll.mp hc with ⟨l, hl, hcl⟩
    rcases List.mem_map.mp hl with ⟨k, hk, rfl⟩
    cases k with
    | base n => simp [expandAdd] at hcl; subst hcl; rfl
    | add cs =>
      have := hks _ hk
      rw [topFlatAdd, List.all_eq_true] at this
      exact this c hcl
    | prod cs => simp [expandAdd] at hcl; subst hcl; rfl
  · intro ks hks
    refine ⟨rfl, ?_⟩
    rw [List.all_eq_true]
    intro c hc
    simp only [mkAdd, mkProd, KTree.children] at hc
    rcases mem_concatAll.mp hc with ⟨l, hl, hcl⟩
    rcases List.mem_map.mp hl with ⟨k, hk, rfl⟩
    cases k with
    | base n => simp [expandProd] at hcl; subst hcl; rfl
    | add cs => simp [expandProd] at hcl; subst hcl; rfl
    | prod cs =>
      have := hks _ hk
      rw [topFlatProd, List.all_eq_true] at this
      exact this c hcl

/-- C2 witness: concrete instantiation of the flattening invariant. -/
theorem C2_flattening_witness :
    (∀ k ∈ [KTree.base 0, mkAdd [KTree.base 1, KTree.base 2]], topFlatAdd k = true) ∧
    ((mkAdd [KTree.base 0, mkAdd [KTree.base 1, KTree.base 2]]).children.all
      (fun c => !c.isAdd)) = true :=
  ⟨by decide, (C2_flattening.1 _ (by decide)).2⟩

/-- C3 counterexample: a single range-selector child with `input_dim = 1`
touches only column 0, so the spec's "inferred input_dim equals the maximum
touched dimension index" predicts 0, but the code infers 1 (`np.max` of
`k.input_dim`, not of `k.input_dim - 1`). -/
theorem C3_counterexample :
    ¬ (combInputDim [(1, ActiveDims.range 1)] =
        specCombInputDim [(1, ActiveDims.range 1)]) := by
  decide

/-- C3 (amended): the inferred `input_dim` of a combination equals one plus
the maximum dimension index touched by any child — range-selector children
contribute their `input_dim` (= largest touched index + 1) and explicit-index
children contribute `max(active_dims) + 1` — provided the child list is
nonempty, range children have positive `input_dim`, and explicit index lists
are nonempty. -/
theorem C3_input_dim_amended (ks : List (ℕ × ActiveDims)) (hne : ks ≠ [])
    (hwf : ks.all rangeChildPos = true) :
    combInputDim ks = specCombInputDim ks + 1 := by
  have hpt : ∀ c ∈ ks, childContrib c = specChildContrib c + 1 := by
    intro c hc
    rw [List.all_eq_true] at hwf
    have hcpos := hwf c hc
    rcases c with ⟨n, ad⟩
    cases ad with
    | range m =>
      simp only [rangeChildPos, decide_eq_true_eq] at hcpos
      simp only [childContrib, specChildContrib]
      omega
    | explicit l => simp [childContrib, specChildContrib]
  have hmaps : ks.map childContrib = (ks.map specChildContrib).map (fun x => x + 1) := by
    rw [List.map_map]
    exact List.map_congr_left hpt
  rw [combInputDim, hmaps, listMax_map_succ _ (by simpa using hne)]
  rfl

/-- C3 witness: concrete children `[(2, range 2), (0, explicit [3])]`. -/
theorem C3_input_dim_witness :
    ([((2 : ℕ), ActiveDims.range 2), (0, ActiveDims.explicit [3])] ≠
        ([] : List (ℕ × ActiveDims))) ∧
    ([((2 : ℕ), ActiveDims.range 2), (0, ActiveDims.explicit [3])].all
        rangeChildPos = true) ∧
    combInputDim [((2 : ℕ), ActiveDims.range 2), (0, ActiveDims.explicit [3])] =
      specCombInputDim [((2 : ℕ), ActiveDims.range 2), (0, ActiveDims.explicit [3])] + 1 :=
  ⟨by decide, by decide, C3_input_dim_amended _ (by decide) (by decide)⟩

/-- C5: for rectangular `X` (N x D) and `X2` (M x D), `_slice` returns both
matrices restricted to the active columns (or `X2` untouched when absent),
each with exactly `input_dim` columns, succeeding exactly when the post-slice
column count equals `input_dim` and failing with a shape error otherwise. -/
theorem C5_slice_contract (n : ℕ) (ad : ActiveDims) (X X2 : Mat)
    (hX : X.wfB = true) (hX2 : X2.wfB = true) (hw : X2.w = X.w) :
    (exOk (Kern_slice n ad X (some X2)) = true ↔ sliceWidth ad X.w = n) ∧
    (sliceWidth ad X.w = n →
      Kern_slice n ad X (some X2) = .ok (X.slice ad, some (X2.slice ad)) ∧
      Kern_slice n ad X none = .ok (X.slice ad, none) ∧
      (X.slice ad).w = n ∧ (X.slice ad).wfB = true ∧
      (X2.slice ad).w = n ∧ (X2.slice ad).wfB = true) ∧
    (sliceWidth ad X.w ≠ n →
      Kern_slice n ad X (some X2) =
        .error "ShapeError: post-slice column count differs from input_dim") := by
  have hwf : ∀ m : Mat, m.wfB = true → (m.slice ad).wfB = true := by
    intro m hm
    rw [Mat.wfB, List.all_eq_true]
    intro r hr
    rcases List.mem_map.mp hr with ⟨r0, hr0, rfl⟩
    rw [Mat.wfB, List.all_eq_true] at hm
    have := hm r0 hr0
    rw [beq_iff_eq] at this ⊢
    exact sliceRow_length ad r0 m.w this
  constructor
  · by_cases h : sliceWidth ad X.w = n <;> simp [Kern_slice, Mat.slice, exOk, h]
  constructor
  · intro h
    refine ⟨by simp [Kern_slice, Mat.slice, h], by simp [Kern_slice, Mat.slice, h],
      h, hwf X hX, ?_, hwf X2 hX2⟩
    show sliceWidth ad X2.w = n
    rw [hw]; exact h
  · intro h
    simp [Kern_slice, Mat.slice, h]

/-- C5 witness: slicing a 1x2 matrix with `active_dims = slice(1)` down to
one column. -/
theorem C5_slice_witness :
    (Mat.mk 2 [[1, 5]]).wfB = true ∧ (Mat.mk 2 [[3, 4]]).wfB = true ∧
    (Mat.mk 2 [[3, 4]]).w = (Mat.mk 2 [[1, 5]]).w ∧
    (exOk (Kern_slice 1 (ActiveDims.range 1) (Mat.mk 2 [[1, 5]])
        (some (Mat.mk 2 [[3, 4]]))) = true ↔
      sliceWidth (ActiveDims.range 1) (Mat.mk 2 [[1, 5]]).w = 1) :=
  ⟨by decide, by decide, rfl,
    (C5_slice_contract 1 (ActiveDims.range 1) (Mat.mk 2 [[1, 5]])
      (Mat.mk 2 [[3, 4]]) (by decide) (by decide) rfl).1⟩

/-- C9: `make_kernel_names` assigns each child its lower-cased class name,
with `_N` suffixes for duplicates and the first duplicate retroactively
renamed to `_1`; on `[RBF, Linear, RBF]` it yields exactly
`["rbf_1", "linear", "rbf_2"]`, and on duplicate-free class names it is the
plain lower-cased list. -/
theorem C9_make_kernel_names :
    make_kernel_names ["RBF", "Linear", "RBF"] = ["rbf_1", "linear", "rbf_2"] ∧
    ∀ l : List String, (lowerNames l).Nodup → make_kernel_names l = lowerNames l := by
  constructor
  · rfl
  · intro l hnd
    rw [make_kernel_names, mkn_fold_nodup (lowerNames l) [] [] (by simp [List.lookup]) hnd]
    simp

/-- C9 witness: duplicate-free input `["RBF", "Linear"]`. -/
theorem C9_make_kernel_names_witness :
    (lowerNames ["RBF", "Linear"]).Nodup ∧
    make_kernel_names ["RBF", "Linear"] = lowerNames ["RBF", "Linear"] :=
  ⟨by decide, C9_make_kernel_names.2 _ (by decide)⟩

/-- C10: `Add.K`/`Prod.K`/`Add.Kdiag`/`Prod.Kdiag` never read their
`presliced` argument (results for `presliced = True` and `False` coincide),
pass the full unsliced inputs to every child, and each child slices its own
active dimensions (shown for two RBF children, which are invoked with their
default `presliced = False`). -/
theorem C10_combination_presliced_ignored :
    (∀ (ks : List ChildK) (X : Mat) (X2 : Option Mat) (p q : Bool),
      AddK ks X X2 p = AddK ks X X2 q) ∧
    (∀ (ks : List ChildK) (X : Mat) (X2 : Option Mat) (p q : Bool),
      ProdK ks X X2 p = ProdK ks X X2 q) ∧
    (∀ (ks : List ChildKdiag) (X : Mat) (p q : Bool),
      AddKdiag ks X p = AddKdiag ks X q) ∧
    (∀ (ks : List ChildKdiag) (X : Mat) (p q : Bool),
      ProdKdiag ks X p = ProdKdiag ks X q) ∧
    (∀ (v1 l1 : ℝ) (n1 : ℕ) (ad1 : ActiveDims) (v2 l2 : ℝ) (n2 : ℕ)
      (ad2 : ActiveDims) (X : Mat) (X2 : Option Mat) (p : Bool),
      AddK [rbfChild v1 l1 n1 ad1, rbfChild v2 l2 n2 ad2] X X2 p =
        (RBF_K v1 l1 n1 ad1 X X2 false).bind (fun A =>
          (RBF_K v2 l2 n2 ad2 X X2 false).map (fun B => matAdd A B))) := by
  refine ⟨fun _ _ _ _ _ => rfl, fun _ _ _ _ _ => rfl, fun _ _ _ _ => rfl,
    fun _ _ _ _ => rfl, ?_⟩
  intro v1 l1 n1 ad1 v2 l2 n2 ad2 X X2 p
  cases h1 : RBF_K v1 l1 n1 ad1 X X2 false with
  | error e =>
    simp [AddK, rbfChild, h1, List.mapM, List.mapM.loop, Bind.bind, Except.bind,
      Functor.map, Except.map, Pure.pure, Except.pure, reduceK]
  | ok A =>
    cases h2 : RBF_K v2 l2 n2 ad2 X X2 false with
    | error e =>
      simp [AddK, rbfChild, h1, h2, List.mapM, List.mapM.loop, Bind.bind, Except.bind,
        Functor.map, Except.map, Pure.pure, Except.pure, reduceK]
    | ok B =>
      simp [AddK, rbfChild, h1, h2, List.mapM, List.mapM.loop, Bind.bind, Except.bind,
        Functor.map, Except.map, Pure.pure, Except.pure, reduceK]

/-- C1: `RBF.K` with variance 2, lengthscale 1 on `X = [[0],[1]]` yields
`[[2, 2 exp(-1/2)], [2 exp(-1/2), 2]]`; in general its entries are
`variance * exp(-r2/2)` where `r2` comes from `square_dist`, whose matmul
identity `-2 a.b + |a|^2 + |b|^2` on lengthscale-rescaled rows equals the
rescaled squared Euclidean distance. -/
theorem C1_rbf_K :
    RBF_K 2 1 1 (ActiveDims.range 1) ⟨1, [[0], [1]]⟩ none false =
      .ok [[2, 2 * Real.exp (-(1 / 2))], [2 * Real.exp (-(1 / 2)), 2]] ∧
    ∀ (l : ℝ) (a b : List ℝ), a.length = b.length →
      -2 * dot (a.map (fun x => x / l)) (b.map (fun x => x / l)) +
          sqnorm (a.map (fun x => x / l)) + sqnorm (b.map (fun x => x / l)) =
        ((a.zip b).map (fun p => ((p.1 - p.2) / l) ^ 2)).sum := by
  constructor
  · norm_num [RBF_K, Kern_slice, Mat.slice, sliceWidth, sliceRow, Except.map,
      rbfCore, square_dist, dot, sqnorm, Real.exp_zero]
  · intro l a b h
    have hid := matmul_identity (a.map (fun x => x / l)) (b.map (fun x => x / l))
      (by simp [h])
    rw [hid, List.zip_map, List.map_map]
    refine congrArg List.sum (List.map_congr_left ?_)
    intro p hp
    simp only [Function.comp, Prod.map_fst, Prod.map_snd]
    rw [div_sub_div_same]

/-- C1 witness: the matmul identity at `l = 1`, `a = [0]`, `b = [1]`. -/
theorem C1_rbf_K_witness :
    ([(0 : ℝ)].length = [(1 : ℝ)].length) ∧
    -2 * dot ([(0 : ℝ)].map (fun x => x / 1)) ([(1 : ℝ)].map (fun x => x / 1)) +
        sqnorm ([(0 : ℝ)].map (fun x => x / 1)) +
        sqnorm ([(1 : ℝ)].map (fun x => x / 1)) =
      (([(0 : ℝ)].zip [(1 : ℝ)]).map (fun p => ((p.1 - p.2) / 1) ^ 2)).sum :=
  ⟨rfl, C1_rbf_K.2 1 [0] [1] rfl⟩

/-- C4: each of the four expectation operations fails (with the
quadrature-disabled configuration error) whenever the global policy is
`error` (refuse) or the kernel's `num_gauss_hermite_points` is 0; in `warn`
mode each emits the warning and otherwise computes exactly what a silent
policy computes. -/
theorem C4_quadrature_gate (policy : String) (pts inputDim : ℕ) (ad : ActiveDims)
    (qd : Mat → List (List (List ℝ)) → List ℝ)
    (qx : Mat → Mat → List (List (List ℝ)) → List (List ℝ))
    (qe : List (List ℝ) → List (List (List ℝ)) → Mat → List (List (List ℝ)))
    (qz : Mat → Mat → List (List (List ℝ)) → List (List (List ℝ)))
    (Z Xmu : Mat) (Xcov : CovInput)
    (Xcov2 : List (List (List ℝ)) × List (List (List ℝ))) :
    ((policy = "error" ∨ pts = 0) →
      exOk (eKdiag policy pts inputDim ad qd Xmu Xcov).2 = false ∧
      exOk (eKxz policy pts inputDim ad qx Z Xmu Xcov).2 = false ∧
      exOk (exKxz policy pts inputDim qe Z Xmu Xcov2).2 = false ∧
      exOk (eKzxKxz policy pts inputDim ad qz Z Xmu Xcov).2 = false) ∧
    (policy = "warn" →
      (eKdiag policy pts inputDim ad qd Xmu Xcov).1 = [quadWarnMsg] ∧
      (eKxz policy pts inputDim ad qx Z Xmu Xcov).1 = [quadWarnMsg] ∧
      (exKxz policy pts inputDim qe Z Xmu Xcov2).1 = [quadWarnMsg] ∧
      (eKzxKxz policy pts inputDim ad qz Z Xmu Xcov).1 = [quadWarnMsg]) ∧
    (∀ p2 : String, p2 ≠ "error" → p2 ≠ "warn" →
      (eKdiag "warn" pts inputDim ad qd Xmu Xcov).2 =
        (eKdiag p2 pts inputDim ad qd Xmu Xcov).2 ∧
      (eKxz "warn" pts inputDim ad qx Z Xmu Xcov).2 =
        (eKxz p2 pts inputDim ad qx Z Xmu Xcov).2 ∧
      (exKxz "warn" pts inputDim qe Z Xmu Xcov2).2 =
        (exKxz p2 pts inputDim qe Z Xmu Xcov2).2 ∧
      (eKzxKxz "warn" pts inputDim ad qz Z Xmu Xcov).2 =
        (eKzxKxz p2 pts inputDim ad qz Z Xmu Xcov).2) := by
  refine ⟨?_, ?_, ?_⟩
  · intro h
    have hq : quadRefused policy pts = true := by
      rcases h with h | h <;> simp [quadRefused, h]
    simp [eKdiag, eKxz, exKxz, eKzxKxz, hq, exOk]
  · intro h
    subst h
    simp [eKdiag, eKxz, exKxz, eKzxKxz, quadWarnings]
  · intro p2 h1 h2
    have hq : quadRefused "warn" pts = quadRefused p2 pts := by
      have hb : (p2 == "error") = false := beq_eq_false_iff_ne.mpr h1
      simp [quadRefused, hb]
    refine ⟨?_, ?_, ?_, ?_⟩ <;> simp only [eKdiag, eKxz, exKxz, eKzxKxz, hq]

/-- C4 witness: with policy `error`, all four operations fail. -/
theorem C4_quadrature_gate_witness :
    (("error" : String) = "error" ∨ (20 : ℕ) = 0) ∧
    exOk (eKdiag "error" 20 1 (ActiveDims.range 1) (fun _ _ => [])
        (Mat.mk 1 [[0]]) (CovInput.diag [[1]])).2 = false ∧
    exOk (eKxz "error" 20 1 (ActiveDims.range 1) (fun _ _ _ => [])
        (Mat.mk 1 [[0]]) (Mat.mk 1 [[0]]) (CovInput.diag [[1]])).2 = false ∧
    exOk (exKxz "error" 20 1 (fun _ _ _ => [])
        (Mat.mk 1 [[0]]) (Mat.mk 1 [[0]]) ([], [])).2 = false ∧
    exOk (eKzxKxz "error" 20 1 (ActiveDims.range 1) (fun _ _ _ => [])
        (Mat.mk 1 [[0]]) (Mat.mk 1 [[0]]) (CovInput.diag [[1]])).2 = false := by
  have h := (C4_quadrature_gate "error" 20 1 (ActiveDims.range 1) (fun _ _ => [])
    (fun _ _ _ => []) (fun _ _ _ => []) (fun _ _ _ => [])
    (Mat.mk 1 [[0]]) (Mat.mk 1 [[0]]) (CovInput.diag [[1]]) ([], [])).1 (Or.inl rfl)
  exact ⟨Or.inl rfl, h.1, h.2.1, h.2.2.1, h.2.2.2⟩

/-- C6 counterexample: `Coregion.K` (kernels.py line 664) takes no
`presliced` parameter, refuting "every concrete kernel's K and Kdiag accept
a presliced argument". -/
theorem C6_counterexample : K_acceptsPresliced KernelClass.coregion = false := rfl

/-- C6 (amended): every concrete kernel's `K` accepts `presliced` except
`Coregion` and the two differential-observation kernels, and every concrete
kernel's `Kdiag` accepts it except those of the Static kernels (White,
Constant/Bias), `Coregion` and the differential kernels.  Where `presliced`
exists it is honored only by the methods that read the input columns: the `K`
methods of the stationary family (RBF, Exponential, Matern12/32/52, Cosine),
Linear, Polynomial, ArcCosine and Periodic, and the `Kdiag` methods of
Linear, Polynomial and ArcCosine, invoke the kernel's own dimension slicer
before the covariance formula exactly when `presliced` is false; the
remaining `presliced`-accepting methods — `White.K`/`Constant.K`,
`Stationary.Kdiag`/`PeriodicKernel.Kdiag` (constant fills that ignore the
input values), and `Add`/`Prod`'s `K`/`Kdiag` (each child slices itself) —
never read the flag and invoke no slicer of their own. -/
theorem C6_presliced_amended :
    (∀ k : KernelClass, K_acceptsPresliced k = false ↔
      (k = KernelClass.coregion ∨ k = KernelClass.diffPreDefined ∨
        k = KernelClass.diffDynamic)) ∧
    (∀ k : KernelClass, Kdiag_acceptsPresliced k = false ↔
      (k = KernelClass.white ∨ k = KernelClass.constant ∨ k = KernelClass.bias ∨
        k = KernelClass.coregion ∨ k = KernelClass.diffPreDefined ∨
        k = KernelClass.diffDynamic)) ∧
    (∀ (v l period offset degree w b : ℝ) (order : ℕ) (n : ℕ) (ad : ActiveDims)
      (X : Mat) (X2 : Option Mat),
      RBF_K v l n ad X X2 false =
        (Kern_slice n ad X X2).bind (fun p => RBF_K v l n ad p.1 p.2 true) ∧
      Exponential_K v l n ad X X2 false =
        (Kern_slice n ad X X2).bind (fun p => Exponential_K v l n ad p.1 p.2 true) ∧
      Matern12_K v l n ad X X2 false =
        (Kern_slice n ad X X2).bind (fun p => Matern12_K v l n ad p.1 p.2 true) ∧
      Matern32_K v l n ad X X2 false =
        (Kern_slice n ad X X2).bind (fun p => Matern32_K v l n ad p.1 p.2 true) ∧
      Matern52_K v l n ad X X2 false =
        (Kern_slice n ad X X2).bind (fun p => Matern52_K v l n ad p.1 p.2 true) ∧
      Cosine_K v l n ad X X2 false =
        (Kern_slice n ad X X2).bind (fun p => Cosine_K v l n ad p.1 p.2 true) ∧
      Linear_K v n ad X X2 false =
        (Kern_slice n ad X X2).bind (fun p => Linear_K v n ad p.1 p.2 true) ∧
      Polynomial_K v degree offset n ad X X2 false =
        (Kern_slice n ad X X2).bind
          (fun p => Polynomial_K v degree offset n ad p.1 p.2 true) ∧
      ArcCosine_K order v w b n ad X X2 false =
        (Kern_slice n ad X X2).bind
          (fun p => ArcCosine_K order v w b n ad p.1 p.2 true) ∧
      PeriodicKernel_K v l period n ad X X2 false =
        (Kern_slice n ad X X2).bind
          (fun p => PeriodicKernel_K v l period n ad p.1 p.2 true) ∧
      Linear_Kdiag v n ad X false =
        (Kern_slice n ad X none).bind (fun p => Linear_Kdiag v n ad p.1 true) ∧
      Polynomial_Kdiag v degree offset n ad X false =
        (Kern_slice n ad X none).bind
          (fun p => Polynomial_Kdiag v degree offset n ad p.1 true) ∧
      ArcCosine_Kdiag order v w b n ad X false =
        (Kern_slice n ad X none).bind
          (fun p => ArcCosine_Kdiag order v w b n ad p.1 true)) ∧
    (∀ (v : ℝ) (X : Mat) (X2 : Option Mat) (p q : Bool),
      White_K v X X2 p = White_K v X X2 q ∧
      Constant_Kp v X X2 p = Constant_Kp v X X2 q ∧
      Stationary_Kdiag_p v X p = List.replicate X.rows.length v ∧
      Periodic_Kdiag_p v X p = List.replicate X.rows.length v) ∧
    (∀ (ks : List ChildK) (kds : List ChildKdiag) (X : Mat) (X2 : Option Mat)
      (p q : Bool),
      AddK ks X X2 p = AddK ks X X2 q ∧ ProdK ks X X2 p = ProdK ks X X2 q ∧
      AddKdiag kds X p = AddKdiag kds X q ∧
      ProdKdiag kds X p = ProdKdiag kds X q) := by
  refine ⟨?_, ?_, ?_, ?_, ?_⟩
  · intro k
    cases k <;> simp [K_acceptsPresliced]
  · intro k
    cases k <;> simp [Kdiag_acceptsPresliced]
  · intro v l period offset degree w b order n ad X X2
    refine ⟨?_, ?_, ?_, ?_, ?_, ?_, ?_, ?_, ?_, ?_, ?_, ?_, ?_⟩
    · cases h : Kern_slice n ad X X2 <;> simp [RBF_K, h, Except.map, Except.bind]
    · cases h : Kern_slice n ad X X2 <;>
        simp [Exponential_K, h, Except.map, Except.bind]
    · cases h : Kern_slice n ad X X2 <;>
        simp [Matern12_K, h, Except.map, Except.bind]
    · cases h : Kern_slice n ad X X2 <;>
        simp [Matern32_K, h, Except.map, Except.bind]
    · cases h : Kern_slice n ad X X2 <;>
        simp [Matern52_K, h, Except.map, Except.bind]
    · cases h : Kern_slice n ad X X2 <;>
        simp [Cosine_K, h, Except.map, Except.bind]
    · cases h : Kern_slice n ad X X2 <;>
        simp [Linear_K, h, Except.map, Except.bind]
    · cases h : Kern_slice n ad X X2 <;>
        simp [Polynomial_K, Linear_K, h, Except.map, Except.bind]
    · cases h : Kern_slice n ad X X2 <;>
        simp [ArcCosine_K, h, Except.map, Except.bind]
    · cases h : Kern_slice n ad X X2 <;>
        simp [PeriodicKernel_K, h, Except.map, Except.bind]
    · cases h : Kern_slice n ad X none <;>
        simp [Linear_Kdiag, h, Except.map, Except.bind]
    · cases h : Kern_slice n ad X none <;>
        simp [Polynomial_Kdiag, Linear_Kdiag, h, Except.map, Except.bind]
    · cases h : Kern_slice n ad X none <;>
        simp [ArcCosine_Kdiag, h, Except.map, Except.bind]
  · intro v X X2 p q
    exact ⟨rfl, rfl, map_fn_const X.rows v, map_fn_const X.rows v⟩
  · intro ks kds X X2 p q
    exact ⟨rfl, rfl, rfl, rfl⟩

/-- C7: for both differential kernel engines, `Kdiag(X)` is exactly the
diagonal of the full `K(X)` (which evaluates the base kernel at `(X, X)`),
and it is not the base kernel's closed-form diagonal shortcut: there is an
instantiation (a Constant base kernel with one recorded derivative) where
`Kdiag` differs from the constant-fill shortcut. -/
theorem C7_diff_Kdiag_via_full_K :
    (∀ (baseK : Mat → Mat → List (List ℝ)) (DL DR : ℕ → ℤ → ℝ → ℝ)
      (derivX derivX2 : List (List ℤ)) (X : Mat),
      DiffPre_Kdiag baseK DL DR derivX derivX2 X =
        diagPart (DiffPre_K baseK DL DR derivX derivX2 X none)) ∧
    (∀ (baseK : Mat → Mat → List (List ℝ))
      (Dyn : ℕ → ℕ → ℕ × ℕ → ℕ × ℕ → DynBranch → ℝ) (obsDims : ℕ) (X : Mat),
      DiffDyn_Kdiag baseK Dyn obsDims X =
        diagPart (DiffDyn_K baseK Dyn obsDims X none)) ∧
    (∃ (v : ℝ) (DL DR : ℕ → ℤ → ℝ → ℝ) (derivX : List (List ℤ)) (X : Mat),
      DiffPre_Kdiag (fun A B => Constant_K v A (some B)) DL DR derivX derivX X ≠
        Static_Kdiag v X) := by
  refine ⟨fun _ _ _ _ _ _ => rfl, fun _ _ _ _ => rfl, ?_⟩
  refine ⟨0, fun _ _ _ => 1, fun _ _ x => x, [[1, 0]], ⟨1, [[5]]⟩, ?_⟩
  simp [DiffPre_Kdiag, DiffPre_K, Constant_K, Static_Kdiag, diagPart,
    applyDerivs, derivNum, derivDims, List.range_succ]

/-- C8: in both differential engines an all-zero derivative descriptor
reproduces the base kernel's undifferentiated value exactly — in the static
engine zero counts run the derivative loops zero times, in the dynamic engine
`(0, 0)` hits the mutually-exclusive dispatch's fallback branch. -/
theorem C8_zero_order_identity :
    (∀ (baseK : Mat → Mat → List (List ℝ)) (DL DR : ℕ → ℤ → ℝ → ℝ)
      (derivX derivX2 : List (List ℤ)) (X X2 : Mat) (i j : ℕ),
      i < derivX.length → j < derivX2.length →
      derivNum (derivX.getD i []) = 0 → derivNum (derivX2.getD j []) = 0 →
      ((DiffPre_K baseK DL DR derivX derivX2 X (some X2)).getD i []).getD j 0 =
        ((baseK X X2).getD i []).getD j 0) ∧
    (∀ (baseK : Mat → Mat → List (List ℝ))
      (Dyn : ℕ → ℕ → ℕ × ℕ → ℕ × ℕ → DynBranch → ℝ) (obsDims : ℕ)
      (X X2 : Mat) (i j : ℕ),
      i < X.rows.length → j < X2.rows.length →
      (∀ v ∈ (X.rows.getD i []).drop ((X.rows.getD i []).length - obsDims), v = 0) →
      (∀ v ∈ (X2.rows.getD j []).drop ((X2.rows.getD j []).length - obsDims), v = 0) →
      ((DiffDyn_K baseK Dyn obsDims X (some X2)).getD i []).getD j 0 =
        ((baseK ⟨obsDims, X.rows.map (fun r => r.take obsDims)⟩
            ⟨obsDims, X2.rows.map (fun r => r.take obsDims)⟩).getD i []).getD j 0) := by
  constructor
  · intro baseK DL DR derivX derivX2 X X2 i j hi hj hni hnj
    rw [DiffPre_K]
    rw [getD_range_map _ _ _ _ hi, getD_range_map _ _ _ _ hj]
    simp only [hni, hnj, applyDerivs, List.range_zero, List.zip_nil_left,
      List.foldl_nil, Option.getD_some]
  · intro baseK Dyn obsDims X X2 i j hi hj hz1 hz2
    rw [DiffDyn_K]
    simp only [Option.getD_some]
    rw [getD_range_map _ _ _ _ (by simpa using hi), getD_range_map _ _ _ _ (by simpa using hj)]
    have hmask : ∀ (m : Mat) (t : ℕ) (ht : t < m.rows.length)
        (hz : ∀ v ∈ (m.rows.getD t []).drop ((m.rows.getD t []).length - obsDims), v = 0),
        ((m.rows.map (fun r => (r.drop (r.length - obsDims)).map castInt)).map
            convertRow).getD t (0, 0, 0) =
          convertRow (((m.rows.getD t []).drop ((m.rows.getD t []).length - obsDims)).map
            castInt) := by
      intro m t ht hz
      rw [getD_map_lt _ _ _ _ [] (by simpa using ht),
        getD_map_lt _ _ _ _ [] ht]
    rw [hmask X i hi hz1, hmask X2 j hj hz2]
    have hsum : ∀ (r : List ℝ), (∀ v ∈ r, v = 0) →
        (convertRow (r.map castInt)).1 = 0 := by
      intro r hr
      show (r.map castInt).sum = 0
      refine List.sum_eq_zero ?_
      intro x hx
      rcases List.mem_map.mp hx with ⟨v, hv, rfl⟩
      rw [hr v hv]
      simp [castInt]
    rw [hsum _ hz1, hsum _ hz2, kCorrectEntry_zero_zero]

/-- C6 witness: the characterization evaluated at the RBF class. -/
theorem C6_presliced_witness :
    K_acceptsPresliced KernelClass.rbf = false ↔
      (KernelClass.rbf = KernelClass.coregion ∨
        KernelClass.rbf = KernelClass.diffPreDefined ∨
        KernelClass.rbf = KernelClass.diffDynamic) :=
  C6_presliced_amended.1 KernelClass.rbf

/-- C7 witness: the static engine's Kdiag/diag identity at a concrete input. -/
theorem C7_diff_Kdiag_witness :
    DiffPre_Kdiag (fun _ _ => [[1]]) (fun _ _ x => x) (fun _ _ x => x)
        [[0]] [[0]] ⟨1, [[0]]⟩ =
      diagPart (DiffPre_K (fun _ _ => [[1]]) (fun _ _ x => x) (fun _ _ x => x)
        [[0]] [[0]] ⟨1, [[0]]⟩ none) :=
  C7_diff_Kdiag_via_full_K.1 (fun _ _ => [[1]]) (fun _ _ x => x) (fun _ _ x => x)
    [[0]] [[0]] ⟨1, [[0]]⟩

/-- C10 witness: `Add.K` at concrete inputs with the two `presliced` values. -/
theorem C10_presliced_witness :
    AddK [] (Mat.mk 1 [[0]]) none true = AddK [] (Mat.mk 1 [[0]]) none false :=
  C10_combination_presliced_ignored.1 [] (Mat.mk 1 [[0]]) none true false

/-- C8 witness: concrete zero descriptors in both engines. -/
theorem C8_zero_order_witness :
    ((0 : ℕ) < ([[(0 : ℤ)]] : List (List ℤ)).length ∧
      derivNum (([[(0 : ℤ)]] : List (List ℤ)).getD 0 []) = 0 ∧
      ((DiffPre_K (fun _ _ => [[3]]) (fun _ _ x => x) (fun _ _ x => x)
          [[(0 : ℤ)]] [[(0 : ℤ)]] ⟨1, [[1]]⟩ (some ⟨1, [[2]]⟩)).getD 0 []).getD 0 0 =
        (((fun (_ : Mat) (_ : Mat) => [[(3 : ℝ)]]) (⟨1, [[1]]⟩ : Mat)
            (⟨1, [[2]]⟩ : Mat)).getD 0 []).getD 0 0) ∧
    ((∀ v ∈ (([[(5 : ℝ), 0]] : List (List ℝ)).getD 0 []).drop
        ((([[(5 : ℝ), 0]] : List (List ℝ)).getD 0 []).length - 1), v = 0) ∧
      ((DiffDyn_K (fun _ _ => [[3]]) (fun _ _ _ _ _ => 0) 1
          ⟨2, [[5, 0]]⟩ (some ⟨2, [[5, 0]]⟩)).getD 0 []).getD 0 0 =
        (((fun (_ : Mat) (_ : Mat) => [[(3 : ℝ)]])
            (⟨1, ([[(5 : ℝ), 0]] : List (List ℝ)).map (fun r => r.take 1)⟩ : Mat)
            (⟨1, ([[(5 : ℝ), 0]] : List (List ℝ)).map (fun r => r.take 1)⟩ : Mat)).getD
          0 []).getD 0 0) := by
  constructor
  · exact ⟨by decide, by decide,
      C8_zero_order_identity.1 (fun _ _ => [[3]]) (fun _ _ x => x) (fun _ _ x => x)
        [[(0 : ℤ)]] [[(0 : ℤ)]] ⟨1, [[1]]⟩ ⟨1, [[2]]⟩ 0 0 (by decide) (by decide)
        (by decide) (by decide)⟩
  · refine ⟨by norm_num, ?_⟩
    exact C8_zero_order_identity.2 (fun _ _ => [[3]]) (fun _ _ _ _ _ => 0) 1
      ⟨2, [[5, 0]]⟩ ⟨2, [[5, 0]]⟩ 0 0 (by simp) (by simp) (by norm_num) (by norm_num)

end GPflow
